import Mathlib

/-!
# Verification of the `servr` (lama.sh) HTTP debug file server

Shallow embedding of `main.go`: the upload sink (`handleUploads`), the
request dispatcher (`debugHandler.ServeHTTP`), the bounded logging channel
(`make(chan *http.Request, 10)`), and the renderer loop
(`debugHandler.logRequests`).  Paths are modelled with a faithful embedding
of Go's lexical `path/filepath.Clean` and `filepath.Join` for `/`-separated
paths.  The filesystem is a snapshot association list from path to content;
the fallible OS calls (`os.CreateTemp`, `io.Copy`, `os.Rename`) are driven
by an explicit environment recording whether each call succeeds, and
`os.CreateTemp`'s fresh temporary name.  Color/styling is elided (the ANSI
escape sequences wrap fields without changing their text content).
-/

namespace Servr

/-! ## Go `path/filepath` model (lexical cleaning of slash-separated paths) -/

/-- Split a character list on `/` (worker with the current segment reversed
in the accumulator). -/
def splitSlashAcc : List Char → List Char → List (List Char)
  | cur, [] => [cur.reverse]
  | cur, c :: cs =>
    if c = '/' then cur.reverse :: splitSlashAcc [] cs
    else splitSlashAcc (c :: cur) cs

/-- Split a character list on `/`, like `strings.Split(s, "/")`:
the result is the list of (possibly empty) separator-free segments. -/
def splitSlash (s : List Char) : List (List Char) := splitSlashAcc [] s

/-- One step of `filepath.Clean`'s element loop: skip an empty or `.`
element, let `..` pop the last kept element (or stick at the front of a
relative path, resp. vanish at the root), push everything else.  `out` is
the list of kept elements in reverse order. -/
def cleanStep (rooted : Bool) (out : List (List Char)) (c : List Char) : List (List Char) :=
  if c = [] ∨ c = ['.'] then out
  else if c = ['.', '.'] then
    match out with
    | [] => if rooted then [] else [['.', '.']]
    | o :: os => if o = ['.', '.'] then ['.', '.'] :: o :: os else os
  else c :: out

/-- `filepath.Clean`'s element loop over all elements. -/
def cleanParts (rooted : Bool) (parts out : List (List Char)) : List (List Char) :=
  parts.foldl (cleanStep rooted) out

/-- Whether the path is rooted (begins with `/`). -/
def isRooted (s : String) : Bool := s.data.head? = some '/'

/-- The cleaned path elements of `s`, in order (the element-level content of
`filepath.Clean s`). -/
def cleanPartsOf (s : String) : List (List Char) :=
  (cleanParts (isRooted s) (splitSlash s.data) []).reverse

/-- Reassemble cleaned elements into the string `filepath.Clean` returns. -/
def renderParts (rooted : Bool) (parts : List (List Char)) : String :=
  let body := (parts.intersperse ['/']).flatten
  if rooted then String.mk ('/' :: body)
  else if body = [] then "." else String.mk body

/-- Go's `filepath.Clean` for slash-separated paths. -/
def goClean (path : String) : String :=
  if path.data = [] then "." else renderParts (isRooted path) (cleanPartsOf path)

/-- Go's `filepath.Join(dir, name)`: join the non-empty elements with `/`
and `Clean` the result. -/
def goJoin (dir name : String) : String :=
  if dir.data = [] then (if name.data = [] then "" else goClean name)
  else if name.data = [] then goClean dir
  else goClean (dir ++ "/" ++ name)

/-- `p` stays confined within directory `dir`: it is `dir` itself or lies
strictly below it. -/
def isConfined (dir p : String) : Bool :=
  p == dir || List.isPrefixOf (dir ++ "/").data p.data

/-! ## Requests, responses, filesystem snapshots -/

deriving instance DecidableEq for Except

/-- The part of Go's `url.URL` the handler reads (`req.URL.Host`). -/
structure URLInfo where
  host : String
  deriving DecidableEq, Repr

/-- Snapshot of an `*http.Request` as read by `debugHandler` and
`handleUploads`.  `urlString` is the `fmt` rendering of `req.URL` used in the
summary line; `formFile` is the result of `r.FormFile("file")` — declared
filename and content on success, the error text on failure (multipart parsing
itself is `net/http` library code, an external collaborator). -/
structure Request where
  method : String
  proto : String
  urlString : String
  urlPath : String
  url : Option URLInfo
  host : String
  requestURI : String
  contentType : String
  transferEncoding : List String
  close : Bool
  header : List (String × List String)
  body : String
  formFile : Except String (String × String)
  deriving DecidableEq, Repr

/-- An HTTP response as produced by this program: a status code and the
plain-text body (`http.Error` writes `msg ++ "\n"`; a handler that writes
nothing yields status 200 with empty body). -/
structure Response where
  status : Nat
  body : String
  deriving DecidableEq, Repr

/-- `http.Error(w, msg, code)`. -/
def httpError (msg : String) (code : Nat) : Response := ⟨code, msg ++ "\n"⟩

/-- The response of a handler that never writes to the `ResponseWriter`. -/
def defaultResponse : Response := ⟨200, ""⟩

/-- Snapshot of the target directory's filesystem: an association list from
path to file content; the head entry for a path shadows older ones. -/
structure FS where
  files : List (String × String)
  deriving DecidableEq, Repr

/-- Content of the file at `p`, if present. -/
def FS.lookup (fs : FS) (p : String) : Option String :=
  (fs.files.find? (fun e => e.1 == p)).map (·.2)

/-- Create/overwrite the file at `p` with content `c`. -/
def FS.write (fs : FS) (p c : String) : FS :=
  ⟨(p, c) :: fs.files⟩

/-- `os.Remove p` (no-op on a missing path, as the program ignores the
returned error). -/
def FS.remove (fs : FS) (p : String) : FS :=
  ⟨fs.files.filter (fun e => e.1 != p)⟩

/-- `os.Rename src dst`: move the file at `src` over `dst`. -/
def FS.rename (fs : FS) (src dst : String) : FS :=
  match fs.lookup src with
  | none => fs
  | some c => (((fs.remove src).remove dst).write dst c)

/-! ## Upload sink (`handleUploads`) -/

/-- Outcome model of the fallible OS calls inside one invocation of the
upload handler: the fresh name `os.CreateTemp` picks, and whether temp
creation, `io.Copy`, and `os.Rename` succeed (with their error texts). -/
structure UploadEnv where
  tmpName : String
  tmpOk : Bool
  tmpErr : String
  copyOk : Bool
  copyErr : String
  renameOk : Bool
  renameErr : String
  deriving DecidableEq, Repr

/-- What the upload handler does with a request: answer it itself, or fall
through to the wrapped inner handler. -/
inductive SinkStep where
  | responded (resp : Response) (fs : FS)
  | forwarded (req : Request) (fs : FS)
  deriving DecidableEq, Repr

/-- The `switch` at the top of `handleUploads`: PUT takes the URL path and the
request body; POST with `Content-Type` exactly `multipart/form-data` takes
`r.FormFile("file")`'s declared filename and content (or fails the request);
anything else falls through to the inner handler. -/
inductive BodySel where
  | upload (filename : String) (filebody : String)
  | badReq (msg : String)
  | fallthru
  deriving DecidableEq, Repr

def selectUpload (r : Request) : BodySel :=
  if r.method = "PUT" then .upload r.urlPath r.body
  else if r.method = "POST" ∧ r.contentType = "multipart/form-data" then
    match r.formFile with
    | .error e => .badReq e
    | .ok (fn, c) => .upload fn c
  else .fallthru

/-- The write path of `handleUploads`: create a temp file in `dir`, copy the
body into it, rename it onto `filepath.Join(dir, filename)`.  The deferred
`os.Remove(tmpfile.Name())` runs on every exit path after temp creation. -/
def writeUpload (dir : String) (env : UploadEnv) (filename filebody : String)
    (fs : FS) : Response × FS :=
  if ¬ env.tmpOk then (httpError env.tmpErr 500, fs)
  else
    let fs1 := fs.write env.tmpName ""
    if ¬ env.copyOk then
      (httpError ("failed to write file body: " ++ env.copyErr) 500, fs1.remove env.tmpName)
    else
      let fs2 := fs1.write env.tmpName filebody
      if ¬ env.renameOk then
        (httpError ("failed to rename file: " ++ env.renameErr) 500, fs2.remove env.tmpName)
      else
        let fs3 := fs2.rename env.tmpName (goJoin dir filename)
        (defaultResponse, fs3.remove env.tmpName)

/-- `handleUploads(dir, handler)`'s returned handler, as a function of the
request and the filesystem snapshot. -/
def handleUploads (dir : String) (env : UploadEnv) (r : Request) (fs : FS) : SinkStep :=
  match selectUpload r with
  | .badReq e => .responded (httpError e 400) fs
  | .fallthru => .forwarded r fs
  | .upload fn c =>
    let (resp, fs') := writeUpload dir env fn c fs
    .responded resp fs'

/-! ## Delegate composition (`main`) and the dispatcher (`debugHandler.ServeHTTP`) -/

/-- The delegate handler `main` wires up: the static file server
(`http.FileServer(http.Dir(dir))`) possibly wrapped by the upload sink. -/
inductive Delegate where
  | fileServer (dir : String)
  | uploadSink (dir : String) (inner : Delegate)
  deriving DecidableEq, Repr

/-- The delegate-construction logic of `main`: with `--dont-serve` no delegate
is installed at all; otherwise the file server, wrapped by `handleUploads`
when `--enable-upload` is set. -/
def buildDelegate (dontServe enableUpload : Bool) (dir : String) : Option Delegate :=
  if dontServe then none
  else if enableUpload then some (.uploadSink dir (.fileServer dir))
  else some (.fileServer dir)

/-- Run a delegate on a request.  The static file server only reads, so it
leaves the filesystem unchanged and answers via the abstract `fileResp`
(it is an off-the-shelf external collaborator); the upload sink either
responds itself or falls through to its inner handler. -/
def runDelegate (fileResp : String → Request → Response) (env : UploadEnv) :
    Delegate → Request → FS → Response × FS
  | .fileServer dir, r, fs => (fileResp dir r, fs)
  | .uploadSink dir inner, r, fs =>
    match handleUploads dir env r fs with
    | .responded resp fs' => (resp, fs')
    | .forwarded r' fs' => runDelegate fileResp env inner r' fs'

/-- Capacity of the logging channel: `make(chan *http.Request, 10)`. -/
def loggerCapacity : Nat := 10

/-- The logging channel's buffer, oldest request first. -/
structure Chan where
  buf : List Request
  deriving DecidableEq, Repr

/-- One attempt at `h.Logger <- req`: succeeds (appending at the back) when
the buffer is below capacity, otherwise the sender blocks (`none`) — the
request is neither dropped nor does the process crash. -/
def Chan.send (c : Chan) (r : Request) : Option Chan :=
  if c.buf.length < loggerCapacity then some ⟨c.buf ++ [r]⟩ else none

/-- `h.Logger <- req` once space is available: the blocking send eventually
appends the request at the back of the buffer. -/
def Chan.sendBlocking (c : Chan) (r : Request) : Chan := ⟨c.buf ++ [r]⟩

/-- `req := <-h.Logger`: receive the oldest buffered request (the receiver
blocks when the buffer is empty). -/
def Chan.recv (c : Chan) : Option (Request × Chan) :=
  match c.buf with
  | [] => none
  | r :: rest => some (r, ⟨rest⟩)

/-- `debugHandler.ServeHTTP`: enqueue the request on the logging channel,
then forward it to the delegate if one is configured, else return with the
default (empty, 200) response and the filesystem untouched. -/
def serveHTTP (delegate : Option Delegate) (fileResp : String → Request → Response)
    (env : UploadEnv) (c : Chan) (r : Request) (fs : FS) : Chan × Response × FS :=
  let c' := c.sendBlocking r
  match delegate with
  | none => (c', defaultResponse, fs)
  | some d =>
    let (resp, fs') := runDelegate fileResp env d r fs
    (c', resp, fs')

/-! ## Renderer (`debugHandler.logRequests`) -/

/-- Go's `fmt.Sprintf("%-7v", s)`: left-justify `s` in a column of minimum
width 7, padding with spaces on the right. -/
def sprintfMinus7v (s : String) : String :=
  s ++ String.mk (List.replicate (7 - s.length) ' ')

/-- The summary line printed for each dequeued request (ANSI color codes
elided): `fmt.Printf("%s %s - %s %s\r\n", method, now, proto, url)`. -/
def summaryLine (time : String) (r : Request) : String :=
  sprintfMinus7v r.method ++ " " ++ time ++ " - " ++ r.proto ++ " " ++ r.urlString ++ "\r\n"

/-- `fmt.Sprintf("%-8v", " ")`: the eight-space padding prefix of every
header dump line. -/
def headerPadding : String := " " ++ String.mk (List.replicate 7 ' ')

/-- `strings.HasPrefix(req.RequestURI, "http://") ||
strings.HasPrefix(req.RequestURI, "https://")`. -/
def absRequestURI (r : Request) : Bool :=
  List.isPrefixOf "http://".data r.requestURI.data
  || List.isPrefixOf "https://".data r.requestURI.data

/-- The host value the dump would print: the request's `Host` field, falling
back to `req.URL.Host` when that is empty and the URL is non-nil. -/
def hostValue (r : Request) : String :=
  if r.host = "" then
    match r.url with
    | some u => u.host
    | none => ""
  else r.host

/-- The `Host:` dump line's value, when one is printed at all. -/
def hostLine (r : Request) : Option String :=
  if absRequestURI r then none
  else if hostValue r = "" then none
  else some (hostValue r)

/-- The header-dump block for one request (tabwriter column alignment elided:
lines are kept as written, tab-separated). -/
def dumpLines (r : Request) : List String :=
  (match hostLine r with
   | some h => [headerPadding ++ "Host:" ++ "\t" ++ h ++ "\r\n"]
   | none => []) ++
  (if r.transferEncoding.length > 0 then
    [headerPadding ++ "Transfer-Encoding:" ++ "\t" ++ String.intercalate "," r.transferEncoding ++ "\r\n"]
   else []) ++
  (if r.close then [headerPadding ++ "Connection:" ++ "\t" ++ "close" ++ "\r\n"] else []) ++
  r.header.map (fun kv => headerPadding ++ kv.1 ++ ":" ++ "\t" ++ String.intercalate ", " kv.2 ++ "\r\n")

/-- One rendered output item of the logging loop. -/
inductive LogLine where
  | summary (line : String)
  | headerBlock (lines : List String)
  | blank
  deriving DecidableEq, Repr

/-- The rendering loop `logRequests`, unfolded over the sequence of requests
it dequeues: a summary line per request, plus the header block and trailing
blank line when dumping is enabled.  `times` gives the wall-clock reading at
the `i`-th iteration. -/
def logRequests (dump : Bool) (times : Nat → String) : List Request → Nat → List LogLine
  | [], _ => []
  | r :: rest, i =>
    .summary (summaryLine (times i) r) ::
      ((if dump then [.headerBlock (dumpLines r), .blank] else []) ++
        logRequests dump times rest (i + 1))

/-- The summary lines among the renderer's output, in emission order. -/
def summariesOf : List LogLine → List String
  | [] => []
  | .summary s :: rest => s :: summariesOf rest
  | .headerBlock _ :: rest => summariesOf rest
  | .blank :: rest => summariesOf rest

/-- The summary line as the spec's sentence reads literally — the method
*left-padded* (padding inserted before the method) to the fixed column
width 7.  A second definition following the spec's words, to be compared
with `summaryLine`, which embeds the source's `%-7v`. -/
def specSummaryLine (time : String) (r : Request) : String :=
  String.mk (List.replicate (7 - r.method.length) ' ') ++ r.method
    ++ " " ++ time ++ " - " ++ r.proto ++ " " ++ r.urlString ++ "\r\n"

/-! ## Concrete fixtures -/

/-- An empty target directory. -/
def fsEmpty : FS := ⟨[]⟩

/-- An environment where every OS call succeeds, with the temporary file
created inside `dir` (as `os.CreateTemp(dir, "lama-upload-*")` does). -/
def envOKIn (dir : String) : UploadEnv :=
  { tmpName := dir ++ "/lama-upload-123456", tmpOk := true, tmpErr := ""
    copyOk := true, copyErr := "", renameOk := true, renameErr := "" }

/-- Like `envOKIn` but `io.Copy` fails. -/
def envCopyFailIn (dir : String) : UploadEnv :=
  { tmpName := dir ++ "/lama-upload-123456", tmpOk := true, tmpErr := ""
    copyOk := false, copyErr := "unexpected EOF", renameOk := true, renameErr := "" }

/-- A plain GET request. -/
def reqGet : Request :=
  { method := "GET", proto := "HTTP/1.1", urlString := "/index.html"
    urlPath := "/index.html", url := some ⟨""⟩, host := "localhost:8080"
    requestURI := "/index.html", contentType := "", transferEncoding := []
    close := false, header := [("Accept", ["*/*"])], body := ""
    formFile := .error "http: no such file" }

/-- `PUT /foo.txt` with body `"hello"`. -/
def reqPutFoo : Request :=
  { method := "PUT", proto := "HTTP/1.1", urlString := "/foo.txt"
    urlPath := "/foo.txt", url := some ⟨""⟩, host := "localhost:8080"
    requestURI := "/foo.txt", contentType := "text/plain", transferEncoding := []
    close := false, header := [], body := "hello"
    formFile := .error "http: no such file" }

/-- A PUT whose path carries path-traversal segments. -/
def reqTraversal : Request :=
  { method := "PUT", proto := "HTTP/1.1", urlString := "/../../etc/passwd"
    urlPath := "/../../etc/passwd", url := some ⟨""⟩, host := "localhost:8080"
    requestURI := "/../../etc/passwd", contentType := "text/plain"
    transferEncoding := [], close := false, header := [], body := "secret"
    formFile := .error "http: no such file" }

/-- A standards-compliant multipart form upload: `POST` whose `Content-Type`
carries the mandatory `boundary` parameter, with a well-formed `file` field
(declared filename `bar.txt`, content `world`). -/
def reqMultipartBoundary : Request :=
  { method := "POST", proto := "HTTP/1.1", urlString := "/"
    urlPath := "/", url := some ⟨""⟩, host := "localhost:8080"
    requestURI := "/", contentType := "multipart/form-data; boundary=xyz"
    transferEncoding := [], close := false
    header := [("Content-Type", ["multipart/form-data; boundary=xyz"])]
    body := "", formFile := .ok ("bar.txt", "world") }

/-- The logging channel filled to its capacity of 10. -/
def chanFull : Chan := ⟨List.replicate 10 reqGet⟩

/-- A multipart `POST` whose `Content-Type` is exactly `multipart/form-data`
with no parameters — the only shape the sink's string comparison accepts.
Without a `boundary` parameter, `r.FormFile` cannot parse the body and fails
(`http: no multipart boundary param in Content-Type`). -/
def reqMultipartExact : Request :=
  { method := "POST", proto := "HTTP/1.1", urlString := "/"
    urlPath := "/", url := some ⟨""⟩, host := "localhost:8080"
    requestURI := "/", contentType := "multipart/form-data"
    transferEncoding := [], close := false
    header := [("Content-Type", ["multipart/form-data"])]
    body := "", formFile := .error "no multipart boundary param in Content-Type" }

/-! ## Theorems -/

set_option maxRecDepth 8192

/-- **C2**: the claim fails on the code.  A standards-compliant multipart
upload request — `POST` with `Content-Type: multipart/form-data; boundary=…`
(RFC 2046 makes the `boundary` parameter mandatory) and a well-formed `file`
field — is *not* treated as a form upload: the exact string comparison
`r.Header.Get("Content-Type") == "multipart/form-data"` fails on the
parameter, so the request falls through to the inner delegate and no file is
written. -/
theorem multipart_with_boundary_bypasses_sink :
    selectUpload reqMultipartBoundary = .fallthru
    ∧ handleUploads "/srv" (envOKIn "/srv") reqMultipartBoundary fsEmpty
        = .forwarded reqMultipartBoundary fsEmpty
    ∧ handleUploads "/srv" (envOKIn "/srv") reqMultipartExact fsEmpty
        = .responded (httpError "no multipart boundary param in Content-Type" 400)
            fsEmpty :=
  ⟨rfl, rfl, rfl⟩

/-- **C6**: the Observer Queue is `make(chan *http.Request, 10)` — capacity
exactly 10; a send onto a full channel blocks (`Chan.send` yields `none`:
nothing is dropped, nothing crashes), and as soon as the renderer receives
one request, the blocked send succeeds, appending at the back. -/
theorem queue_capacity_ten_blocks (c : Chan) (r : Request)
    (hfull : c.buf.length = loggerCapacity) :
    loggerCapacity = 10
    ∧ c.send r = none
    ∧ ∀ r' c', c.recv = some (r', c') → c'.send r = some ⟨c'.buf ++ [r]⟩ := by
  refine ⟨rfl, ?_, ?_⟩
  · simp [Chan.send, hfull]
  · intro r' c' h
    cases hb : c.buf with
    | nil => simp [Chan.recv, hb] at h
    | cons x xs =>
      rw [hb] at hfull
      simp [Chan.recv, hb] at h
      have hx : c' = ⟨xs⟩ := h.2.symm
      subst hx
      have hlen : xs.length < loggerCapacity := by
        simp [loggerCapacity] at hfull ⊢
        omega
      simp [Chan.send, hlen]

/-- Witness for C6: a channel holding ten requests. -/
theorem queue_capacity_ten_blocks_w :
    loggerCapacity = 10
    ∧ chanFull.send reqGet = none
    ∧ ∀ r' c', chanFull.recv = some (r', c') →
        c'.send reqGet = some ⟨c'.buf ++ [reqGet]⟩ :=
  queue_capacity_ten_blocks chanFull reqGet rfl

/-- **C7**: `ServeHTTP` enqueues the request onto the logging channel and then
forwards the very same request to the delegate when one is configured; with no
delegate it answers with the default empty 200 response and leaves the
filesystem untouched — the only state it changes is the queue. -/
theorem dispatcher_enqueue_then_forward (delegate : Option Delegate)
    (fileResp : String → Request → Response) (env : UploadEnv)
    (c : Chan) (r : Request) (fs : FS) :
    (serveHTTP delegate fileResp env c r fs).1 = c.sendBlocking r
    ∧ (delegate = none →
        serveHTTP delegate fileResp env c r fs = (c.sendBlocking r, defaultResponse, fs))
    ∧ ∀ d, delegate = some d →
        (serveHTTP delegate fileResp env c r fs).2 = runDelegate fileResp env d r fs := by
  cases delegate <;> simp [serveHTTP]

/-- **C8**: in header-dump mode the `Host:` value is the request's explicit
host field, falling back to the URL's authority when that field is empty; the
line is omitted when the request URI is absolute (`http://`/`https://`
prefix), and when both the host field and the URL authority are empty;
whenever a value is produced, the corresponding line is part of the dump
block. -/
theorem host_line_cases (r : Request) :
    (absRequestURI r = true → hostLine r = none)
    ∧ (absRequestURI r = false → r.host ≠ "" → hostLine r = some r.host)
    ∧ (absRequestURI r = false → r.host = "" →
        ∀ u, r.url = some u → u.host ≠ "" → hostLine r = some u.host)
    ∧ (absRequestURI r = false → r.host = "" →
        (∀ u, r.url = some u → u.host = "") → hostLine r = none)
    ∧ (∀ h, hostLine r = some h →
        (headerPadding ++ "Host:" ++ "\t" ++ h ++ "\r\n") ∈ dumpLines r) := by
  refine ⟨?_, ?_, ?_, ?_, ?_⟩
  · intro habs; simp [hostLine, habs]
  · intro habs hh; simp [hostLine, habs, hostValue, hh]
  · intro habs hh u hu huh; simp [hostLine, habs, hostValue, hh, hu, huh]
  · intro habs hh hall
    cases hu : r.url with
    | none => simp [hostLine, habs, hostValue, hh, hu]
    | some u => simp [hostLine, habs, hostValue, hh, hu, hall u hu]
  · intro h hh
    simp [dumpLines, hh]

/-- Witness for C8: a request with an explicit host field. -/
theorem host_line_cases_w : hostLine reqGet = some "localhost:8080" :=
  (host_line_cases reqGet).2.1 rfl (by simp [reqGet])

/-- **C9** counterexample: the method is not *left-padded*.  For `GET` the
rendered line starts with `GET` followed by four spaces, not four spaces
followed by `GET`. -/
theorem summary_line_not_left_padded_cx :
    summaryLine "2019-01-01T00:00:00Z" reqGet
      ≠ specSummaryLine "2019-01-01T00:00:00Z" reqGet := by
  decide

/-- **C9** amended: the summary line is the method *left-justified* in a
7-character column — the padding spaces follow the method — then the
wall-clock time (RFC3339), ` - `, the protocol string, and the URL; in
particular the line's first characters are the method itself. -/
theorem summary_line_format (time : String) (r : Request) :
    (summaryLine time r).data
      = r.method.data ++ List.replicate (7 - r.method.length) ' '
        ++ (" " ++ time ++ " - " ++ r.proto ++ " " ++ r.urlString ++ "\r\n").data
    ∧ (summaryLine time r).data.take r.method.length = r.method.data := by
  have hd : (summaryLine time r).data
      = r.method.data ++ (List.replicate (7 - r.method.length) ' '
        ++ (" " ++ time ++ " - " ++ r.proto ++ " " ++ r.urlString ++ "\r\n").data) := by
    simp [summaryLine, sprintfMinus7v, String.data_append]
  refine ⟨by rw [hd]; simp [List.append_assoc], ?_⟩
  rw [hd]
  exact List.take_left r.method.data _

/-- A path absent from the snapshot matches no entry, so removing it is a
filter that keeps everything. -/
theorem filter_ne_of_fresh (fs : FS) (t : String) (h : fs.lookup t = none) :
    fs.files.filter (fun e => e.1 != t) = fs.files := by
  apply List.filter_eq_self.mpr
  intro e he
  have hf : fs.files.find? (fun e => e.1 == t) = none := by
    unfold FS.lookup at h
    exact Option.map_eq_none'.mp h
  have := List.find?_eq_none.mp hf e he
  simpa using this

theorem filter_ne_cons_self (l : List (String × String)) (t c : String) :
    List.filter (fun e => e.1 != t) ((t, c) :: l) = List.filter (fun e => e.1 != t) l := by
  simp [List.filter_cons]

/-- Removing an absent path is a no-op. -/
theorem remove_of_fresh (fs : FS) (t : String) (h : fs.lookup t = none) :
    fs.remove t = fs := by
  obtain ⟨files⟩ := fs
  simp only [FS.remove, FS.mk.injEq]
  exact filter_ne_of_fresh ⟨files⟩ t h

/-- Removing a freshly written path undoes the write. -/
theorem remove_write_fresh (fs : FS) (t c : String) (h : fs.lookup t = none) :
    (fs.write t c).remove t = fs := by
  obtain ⟨files⟩ := fs
  simp only [FS.write, FS.remove, FS.mk.injEq]
  rw [filter_ne_cons_self]
  exact filter_ne_of_fresh ⟨files⟩ t h

/-- Removing a freshly written path undoes two writes to it. -/
theorem remove_write_write_fresh (fs : FS) (t c₁ c₂ : String)
    (h : fs.lookup t = none) :
    ((fs.write t c₁).write t c₂).remove t = fs := by
  obtain ⟨files⟩ := fs
  simp only [FS.write, FS.remove, FS.mk.injEq]
  rw [filter_ne_cons_self, filter_ne_cons_self]
  exact filter_ne_of_fresh ⟨files⟩ t h

/-- Looking up just-written content. -/
theorem FS.lookup_write_self (fs : FS) (p c : String) :
    (fs.write p c).lookup p = some c := by
  simp [FS.write, FS.lookup, List.find?_cons]

/-- A write leaves other paths' content alone. -/
theorem FS.lookup_write_ne (fs : FS) (p c q : String) (h : q ≠ p) :
    (fs.write p c).lookup q = fs.lookup q := by
  have hp : (p == q) = false := beq_eq_false_iff_ne.mpr (Ne.symm h)
  simp [FS.write, FS.lookup, List.find?_cons, hp]

theorem find?_filter_key (l : List (String × String)) (p q : String) (h : q ≠ p) :
    (l.filter (fun e => e.1 != p)).find? (fun e => e.1 == q)
      = l.find? (fun e => e.1 == q) := by
  induction l with
  | nil => rfl
  | cons e t ih =>
    rw [List.filter_cons]
    by_cases he : e.1 = p
    · have h1 : (e.1 != p) = false := by simp [he]
      have h2 : (e.1 == q) = false := by
        rw [he]; exact beq_eq_false_iff_ne.mpr (Ne.symm h)
      simp [h1, h2, List.find?_cons, ih]
    · have h1 : (e.1 != p) = true := by simp [he]
      simp only [h1, if_true, List.find?_cons, ih]

/-- A removal leaves other paths' content alone. -/
theorem FS.lookup_remove_ne (fs : FS) (p q : String) (h : q ≠ p) :
    (fs.remove p).lookup q = fs.lookup q := by
  simp [FS.remove, FS.lookup, find?_filter_key fs.files p q h]

/-- The complete behavior of the write path of `handleUploads`, for a fresh
temporary name that differs from the destination: a successful upload
replaces the destination's content with the body and removes nothing else; a
copy or rename failure answers 500 and leaves the filesystem exactly as it
was — the temporary file is cleaned up and the destination untouched. -/
theorem writeUpload_spec (dir : String) (env : UploadEnv) (fn c : String) (fs : FS)
    (htmp : env.tmpOk = true) (hfresh : fs.lookup env.tmpName = none)
    (hne : goJoin dir fn ≠ env.tmpName) :
    writeUpload dir env fn c fs =
      if env.copyOk then
        if env.renameOk then
          (defaultResponse, (fs.remove (goJoin dir fn)).write (goJoin dir fn) c)
        else (httpError ("failed to rename file: " ++ env.renameErr) 500, fs)
      else (httpError ("failed to write file body: " ++ env.copyErr) 500, fs) := by
  by_cases hc : env.copyOk
  · by_cases hr : env.renameOk
    · have hs : ((fs.write env.tmpName "").write env.tmpName c).rename env.tmpName
          (goJoin dir fn) = (fs.remove (goJoin dir fn)).write (goJoin dir fn) c := by
        simp [FS.rename, FS.lookup_write_self, remove_write_write_fresh fs _ _ _ hfresh]
      have hfresh2 : ((fs.remove (goJoin dir fn)).write (goJoin dir fn) c).lookup
          env.tmpName = none := by
        rw [FS.lookup_write_ne _ _ _ _ (Ne.symm hne), FS.lookup_remove_ne _ _ _ (Ne.symm hne)]
        exact hfresh
      simp only [writeUpload, htmp, hc, hr, not_true_eq_false, if_false]
      rw [hs, remove_of_fresh _ _ hfresh2]
      simp
    · simp only [writeUpload, htmp, hc, hr, not_true_eq_false, not_false_eq_true,
        if_false, if_true]
      rw [remove_write_write_fresh fs _ _ _ hfresh]
      simp [hr]
  · simp only [writeUpload, htmp, hc, not_true_eq_false, not_false_eq_true,
      if_false, if_true]
    rw [remove_write_fresh fs _ _ hfresh]
    simp [hc]

/-- **C3**: on a copy failure the sink answers with an InternalError-class
(500) response and the filesystem is exactly what it was — the temporary file
has been removed and the destination path untouched (in particular no file
appears at the destination); a rename failure likewise answers 500 with the
temporary file cleaned up; and for any request selected as an upload,
`handleUploads` responds with precisely the write path's response and
filesystem. -/
theorem upload_failure_cleanup (dir : String) (env : UploadEnv) (fn c : String)
    (fs : FS) (htmp : env.tmpOk = true) (hfresh : fs.lookup env.tmpName = none) :
    (env.copyOk = false →
      writeUpload dir env fn c fs
        = (httpError ("failed to write file body: " ++ env.copyErr) 500, fs))
    ∧ (env.copyOk = true → env.renameOk = false →
      writeUpload dir env fn c fs
        = (httpError ("failed to rename file: " ++ env.renameErr) 500, fs))
    ∧ ∀ r : Request, selectUpload r = .upload fn c →
        handleUploads dir env r fs
          = .responded (writeUpload dir env fn c fs).1 (writeUpload dir env fn c fs).2 := by
  refine ⟨?_, ?_, ?_⟩
  · intro hc
    simp only [writeUpload, htmp, hc, not_true_eq_false, not_false_eq_true,
      if_false, if_true]
    rw [remove_write_fresh fs _ _ hfresh]
    simp
  · intro hc hr
    simp only [writeUpload, htmp, hc, hr, not_true_eq_false, not_false_eq_true,
      if_false, if_true]
    rw [remove_write_write_fresh fs _ _ _ hfresh]
    simp
  · intro r hsel
    simp [handleUploads, hsel]

/-- Witness for C3: a concrete interrupted copy leaves the (empty) directory
empty — no destination file, no leftover temp file — and returns 500. -/
theorem upload_failure_cleanup_w :
    writeUpload "/srv" (envCopyFailIn "/srv") "/foo.txt" "hello" fsEmpty
      = (httpError ("failed to write file body: "
          ++ (envCopyFailIn "/srv").copyErr) 500, fsEmpty) :=
  (upload_failure_cleanup "/srv" (envCopyFailIn "/srv") "/foo.txt" "hello" fsEmpty
    rfl rfl).1 rfl

/-- **C4**: a PUT handled by the sink writes the entire request body as the
content of `filepath.Join(dir, path)`: afterwards exactly that file holds the
body, and every other path's content is exactly as before (the temp file is
gone). -/
theorem put_upload_writes_file (dir : String) (env : UploadEnv) (r : Request)
    (fs : FS) (hm : r.method = "PUT")
    (htmp : env.tmpOk = true) (hcopy : env.copyOk = true) (hren : env.renameOk = true)
    (hfresh : fs.lookup env.tmpName = none)
    (hne : goJoin dir r.urlPath ≠ env.tmpName) :
    handleUploads dir env r fs
      = .responded defaultResponse
          ((fs.remove (goJoin dir r.urlPath)).write (goJoin dir r.urlPath) r.body)
    ∧ ((fs.remove (goJoin dir r.urlPath)).write (goJoin dir r.urlPath) r.body).lookup
        (goJoin dir r.urlPath) = some r.body
    ∧ ∀ p, p ≠ goJoin dir r.urlPath →
        ((fs.remove (goJoin dir r.urlPath)).write (goJoin dir r.urlPath) r.body).lookup p
          = fs.lookup p := by
  have hsel : selectUpload r = .upload r.urlPath r.body := by
    simp [selectUpload, hm]
  have hw := writeUpload_spec dir env r.urlPath r.body fs htmp hfresh hne
  rw [hcopy, hren] at hw
  simp only [if_true] at hw
  refine ⟨?_, ?_, ?_⟩
  · simp [handleUploads, hsel, hw]
  · exact FS.lookup_write_self _ _ _
  · intro p hp
    rw [FS.lookup_write_ne _ _ _ _ hp, FS.lookup_remove_ne _ _ _ hp]

/-- Witness for C4: `PUT /foo.txt` with body `"hello"` against an empty
`/srv` leaves exactly `/srv/foo.txt` containing `"hello"`. -/
theorem put_upload_writes_file_w :
    handleUploads "/srv" (envOKIn "/srv") reqPutFoo fsEmpty
      = .responded defaultResponse
          ((fsEmpty.remove (goJoin "/srv" reqPutFoo.urlPath)).write
            (goJoin "/srv" reqPutFoo.urlPath) reqPutFoo.body)
    ∧ ((fsEmpty.remove (goJoin "/srv" reqPutFoo.urlPath)).write
        (goJoin "/srv" reqPutFoo.urlPath) reqPutFoo.body).lookup
          (goJoin "/srv" reqPutFoo.urlPath) = some reqPutFoo.body
    ∧ ∀ p, p ≠ goJoin "/srv" reqPutFoo.urlPath →
        ((fsEmpty.remove (goJoin "/srv" reqPutFoo.urlPath)).write
          (goJoin "/srv" reqPutFoo.urlPath) reqPutFoo.body).lookup p
          = fsEmpty.lookup p :=
  put_upload_writes_file "/srv" (envOKIn "/srv") reqPutFoo fsEmpty rfl rfl rfl rfl rfl
    (by decide)

/-- Blocking sends enqueue at the back, in order. -/
theorem foldl_sendBlocking_buf (reqs : List Request) (c : Chan) :
    (List.foldl Chan.sendBlocking c reqs).buf = c.buf ++ reqs := by
  induction reqs generalizing c with
  | nil => simp
  | cons r rest ih => simp [Chan.sendBlocking, ih]

/-- The renderer's output starts with the head request's summary line and
continues with the rendering of the remaining requests. -/
theorem summariesOf_logRequests_cons (dump : Bool) (times : Nat → String)
    (r : Request) (rest : List Request) (i : Nat) :
    summariesOf (logRequests dump times (r :: rest) i)
      = summaryLine (times i) r :: summariesOf (logRequests dump times rest (i + 1)) := by
  cases dump <;> simp [logRequests, summariesOf]

/-- The `k`-th summary line the renderer emits is the summary of the `k`-th
request it dequeues. -/
theorem summariesOf_logRequests_getElem (dump : Bool) (times : Nat → String) :
    ∀ (l : List Request) (i k : Nat),
      (summariesOf (logRequests dump times l i))[k]?
        = (l[k]?).map (fun r => summaryLine (times (i + k)) r) := by
  intro l
  induction l with
  | nil => intro i k; simp [logRequests, summariesOf]
  | cons r rest ih =>
    intro i k
    rw [summariesOf_logRequests_cons]
    cases k with
    | zero => simp
    | succ k' =>
      have hik : i + (k' + 1) = (i + 1) + k' := by omega
      simp [List.getElem?_cons_succ, ih (i + 1) k', hik]

/-- The renderer emits one summary line per dequeued request. -/
theorem summariesOf_logRequests_length (dump : Bool) (times : Nat → String) :
    ∀ (l : List Request) (i : Nat),
      (summariesOf (logRequests dump times l i)).length = l.length := by
  intro l
  induction l with
  | nil => intro i; simp [logRequests, summariesOf]
  | cons r rest ih => intro i; rw [summariesOf_logRequests_cons]; simp [ih]

/-- **C5**: enqueueing `N` accepted requests in order onto the (initially
empty) Observer Queue buffers them FIFO — dequeue order equals enqueue
order — and the renderer emits exactly `N` summary lines, the `k`-th line
being the summary of the `k`-th accepted request. -/
theorem renderer_emits_in_fifo_order (dump : Bool) (times : Nat → String)
    (reqs : List Request) :
    (List.foldl Chan.sendBlocking ⟨[]⟩ reqs).buf = reqs
    ∧ (summariesOf (logRequests dump times
        (List.foldl Chan.sendBlocking ⟨[]⟩ reqs).buf 0)).length = reqs.length
    ∧ ∀ k, (summariesOf (logRequests dump times
        (List.foldl Chan.sendBlocking ⟨[]⟩ reqs).buf 0))[k]?
          = (reqs[k]?).map (fun r => summaryLine (times k) r) := by
  have hb : (List.foldl Chan.sendBlocking (⟨[]⟩ : Chan) reqs).buf = reqs := by
    simpa using foldl_sendBlocking_buf reqs ⟨[]⟩
  refine ⟨hb, ?_, ?_⟩
  · rw [hb]; exact summariesOf_logRequests_length dump times reqs 0
  · intro k
    rw [hb]
    simpa using summariesOf_logRequests_getElem dump times reqs 0 k

/-- **C10**: with `--dont-serve` set, `main` installs no delegate at all —
`--enable-upload` has no effect — so every request (PUT and multipart POST
included) only gets logged and receives the default empty 200 response, and
the filesystem is never touched. -/
theorem dont_serve_ignores_upload (enableUpload : Bool) (dir : String)
    (fileResp : String → Request → Response) (env : UploadEnv)
    (c : Chan) (r : Request) (fs : FS) :
    buildDelegate true enableUpload dir = none
    ∧ serveHTTP (buildDelegate true enableUpload dir) fileResp env c r fs
        = (c.sendBlocking r, defaultResponse, fs) := by
  simp [buildDelegate, serveHTTP]

/-- **C1** counterexample: the sink applies no traversal guard.  An upload
whose declared filename is `/../../etc/passwd` against target directory
`/srv/files` renames the temporary file onto `/etc/passwd` — a destination
outside the directory passed to the sink — and answers 200. -/
theorem upload_traversal_escapes_cx :
    handleUploads "/srv/files" (envOKIn "/srv/files") reqTraversal fsEmpty
      = .responded defaultResponse ⟨[("/etc/passwd", "secret")]⟩
    ∧ isConfined "/srv/files" "/etc/passwd" = false := by
  constructor <;> decide

theorem splitSlashAcc_append (a b : List Char) :
    ∀ cur, splitSlashAcc cur (a ++ '/' :: b) = splitSlashAcc cur a ++ splitSlashAcc [] b := by
  induction a with
  | nil => intro cur; simp [splitSlashAcc]
  | cons c cs ih =>
    intro cur
    by_cases hc : c = '/'
    · simp [splitSlashAcc, hc, ih]
    · simp [splitSlashAcc, hc, ih]

/-- Splitting on `/` distributes over concatenation at a separator. -/
theorem splitSlash_append (a b : List Char) :
    splitSlash (a ++ '/' :: b) = splitSlash a ++ splitSlash b :=
  splitSlashAcc_append a b []

/-- The cleaning loop processes concatenated element lists in sequence. -/
theorem cleanParts_append (rooted : Bool) (xs ys out : List (List Char)) :
    cleanParts rooted (xs ++ ys) out = cleanParts rooted ys (cleanParts rooted xs out) := by
  simp [cleanParts, List.foldl_append]

/-- Elements free of `..` are only ever skipped or pushed: the kept elements
below `out` are untouched. -/
theorem cleanParts_no_dotdot (rooted : Bool) (ys : List (List Char))
    (h : ∀ c ∈ ys, c ≠ ['.', '.']) :
    ∀ out, ∃ pushed, cleanParts rooted ys out = pushed ++ out := by
  induction ys with
  | nil => intro out; exact ⟨[], rfl⟩
  | cons y ys ih =>
    intro out
    have hy : y ≠ ['.', '.'] := h y (by simp)
    have ih' := ih (fun c hc => h c (by simp [hc]))
    by_cases h1 : y = [] ∨ y = ['.']
    · obtain ⟨pushed, hp⟩ := ih' out
      refine ⟨pushed, ?_⟩
      have hstep : cleanStep rooted out y = out := by simp [cleanStep, h1]
      simpa [cleanParts, hstep] using hp
    · obtain ⟨pushed, hp⟩ := ih' (y :: out)
      refine ⟨pushed ++ [y], ?_⟩
      have hstep : cleanStep rooted out y = y :: out := by simp [cleanStep, h1, hy]
      simp only [cleanParts, List.foldl_cons, hstep]
      simpa [List.append_assoc] using hp

theorem data_join_slash (dir name : String) :
    (dir ++ "/" ++ name).data = dir.data ++ '/' :: name.data := by
  have hs : ("/" : String).data = ['/'] := rfl
  simp [String.data_append, hs]

theorem isRooted_append (dir name : String) (hd : dir.data ≠ []) :
    isRooted (dir ++ "/" ++ name) = isRooted dir := by
  unfold isRooted
  rw [data_join_slash]
  cases hdd : dir.data with
  | nil => exact absurd hdd hd
  | cons c cs => simp

/-- Flattening interspersed separators distributes over concatenation of two
non-empty element lists. -/
theorem flatten_intersperse_append (sep : List Char) (B : List (List Char))
    (hB : B ≠ []) :
    ∀ A : List (List Char), A ≠ [] →
      ((A ++ B).intersperse sep).flatten
        = (A.intersperse sep).flatten ++ sep ++ (B.intersperse sep).flatten := by
  intro A
  induction A with
  | nil => intro hA; exact absurd rfl hA
  | cons a A' ih =>
    intro _
    cases hA' : A' with
    | nil =>
      cases B with
      | nil => exact absurd rfl hB
      | cons b B' => simp [List.intersperse, List.append_assoc]
    | cons a2 A'' =>
      have ih' := ih (by simp [hA'])
      subst hA'
      simp only [List.cons_append] at ih' ⊢
      simp only [List.intersperse_cons_cons, List.flatten_cons]
      rw [ih']
      simp [List.append_assoc]

/-- **C1** amended: the rename destination is `filepath.Join(dir, filename)`
(a lexical clean of `dir + "/" + filename`, with no explicit traversal
guard).  When the declared filename contains no `..` segments the
destination's path elements extend the cleaned directory's elements, and —
for a rooted directory that cleans to at least one element — the destination
string stays confined within `goClean dir`.  A filename with `..` segments
can escape the directory (see the counterexample). -/
theorem upload_join_confined_without_dotdot (dir name : String)
    (hd : dir.data ≠ []) (hn : name.data ≠ [])
    (hdot : ∀ c ∈ splitSlash name.data, c ≠ ['.', '.'])
    (hroot : isRooted dir = true) (hparts : cleanPartsOf dir ≠ []) :
    cleanPartsOf dir <+: cleanPartsOf (dir ++ "/" ++ name)
    ∧ goJoin dir name = renderParts (isRooted dir) (cleanPartsOf (dir ++ "/" ++ name))
    ∧ isConfined (goClean dir) (goJoin dir name) = true := by
  have hrootj : isRooted (dir ++ "/" ++ name) = isRooted dir := isRooted_append dir name hd
  have hsplit : splitSlash ((dir ++ "/" ++ name).data)
      = splitSlash dir.data ++ splitSlash name.data := by
    rw [data_join_slash]; exact splitSlash_append _ _
  obtain ⟨pushed, hpush⟩ := cleanParts_no_dotdot (isRooted dir) (splitSlash name.data)
    hdot (cleanParts (isRooted dir) (splitSlash dir.data) [])
  have hparts_eq : cleanPartsOf (dir ++ "/" ++ name)
      = cleanPartsOf dir ++ pushed.reverse := by
    unfold cleanPartsOf
    rw [hrootj, hsplit, cleanParts_append, hpush]
    simp
  have hjoined_ne : (dir ++ "/" ++ name).data ≠ [] := by
    rw [data_join_slash]
    simp
  have hgj : goJoin dir name = renderParts (isRooted dir) (cleanPartsOf (dir ++ "/" ++ name)) := by
    unfold goJoin goClean
    rw [if_neg hd, if_neg hn, if_neg hjoined_ne, hrootj]
  have hgc : goClean dir = renderParts (isRooted dir) (cleanPartsOf dir) := by
    unfold goClean
    rw [if_neg hd]
  refine ⟨by rw [hparts_eq]; exact List.prefix_append _ _, hgj, ?_⟩
  cases hpr : pushed.reverse with
  | nil =>
    have hsame : goJoin dir name = goClean dir := by
      rw [hgj, hgc, hparts_eq, hpr, List.append_nil]
    simp [isConfined, hsame]
  | cons b bs =>
    have hflat := flatten_intersperse_append ['/'] (b :: bs) (by simp)
      (cleanPartsOf dir) hparts
    have hdest : (goJoin dir name).data
        = '/' :: (((cleanPartsOf dir).intersperse ['/']).flatten
            ++ '/' :: (((b :: bs).intersperse ['/']).flatten)) := by
      rw [hgj, hparts_eq, hpr]
      unfold renderParts
      rw [hroot]
      simp only [if_true, hflat]
      simp [List.append_assoc]
    have hdir : (goClean dir).data
        = '/' :: ((cleanPartsOf dir).intersperse ['/']).flatten := by
      rw [hgc]
      unfold renderParts
      rw [hroot]
      simp
    have hpref : (goClean dir).data ++ ['/'] <+: (goJoin dir name).data := by
      rw [hdir, hdest]
      refine ⟨((b :: bs).intersperse ['/']).flatten, ?_⟩
      simp [List.append_assoc]
    simp [isConfined, hpref]

/-- Witness for C1 (amended): a traversal-free filename under `/srv/files`
lands inside the directory. -/
theorem upload_join_confined_without_dotdot_w :
    cleanPartsOf "/srv/files" <+: cleanPartsOf ("/srv/files" ++ "/" ++ "a/b.txt")
    ∧ goJoin "/srv/files" "a/b.txt"
        = renderParts (isRooted "/srv/files") (cleanPartsOf ("/srv/files" ++ "/" ++ "a/b.txt"))
    ∧ isConfined (goClean "/srv/files") (goJoin "/srv/files" "a/b.txt") = true :=
  upload_join_confined_without_dotdot "/srv/files" "a/b.txt" (by decide) (by decide)
    (by decide) (by decide) (by decide)

end Servr
